import Mathlib

/-!
Shallow embedding of `src/app.py`, a Monopoly-like board-game simulation.

Modelling conventions:
* Python player objects are represented by their index into the game's player
  list; object identity (`is` / `is not`) becomes index equality.  A `Player`
  record holds the mutable balance and the strategy tag (the Python subclass of
  `AbstractPlayer`).
* In-place mutation of players / properties becomes explicit state passing on
  `List Player` / `GameState`.
* Randomness (`roll_die`, `coin_toss`, the random board generator) is injected
  as explicit inputs: `play` takes streams `dice : Nat → Nat` and
  `coins : Nat → Bool` indexed by the turn counter, and `play_game` takes the
  generated board as an argument.
* Fallible Python operations (list indexing, division) return
  `Except PyError _`; `PyError` names the Python exception class raised.
-/

/-- Python exception classes that the modelled code can raise. -/
inductive PyError
  | indexError
  | zeroDivisionError
deriving DecidableEq

/-- Strategy tag: the concrete subclass of `AbstractPlayer` a player belongs
to (`ImpulsivePlayer`, `DemandingPlayer`, `CautiousPlayer`, `RandomPlayer`). -/
inductive Behavior
  | impulsive
  | demanding
  | cautious
  | random
deriving DecidableEq

/-- A player object: mutable balance plus the (immutable) strategy class. -/
structure Player where
  balance : Int
  behavior : Behavior
deriving DecidableEq

/-- Fresh players start with balance 300 (`AbstractPlayer.__init__`). -/
instance : Inhabited Player := ⟨⟨300, Behavior.impulsive⟩⟩

/-- A board cell (`Property.__init__`): sell cost, rent cost, optional owner.
The owner is the index of a player; `none` means unowned.  The `Option`
type makes ownership exclusive by construction (at most one owner). -/
structure Property where
  sell_cost : Int
  rent_cost : Int
  owner : Option Nat
deriving DecidableEq

instance : Inhabited Property := ⟨⟨0, 0, none⟩⟩

/-- `Property.has_owner`. -/
def Property.has_owner (p : Property) : Bool :=
  p.owner.isSome

/-- `AbstractPlayer.get_balance` for the player object at index `i`. -/
def get_balance (players : List Player) (i : Nat) : Int :=
  (players.getD i default).balance

/-- `AbstractPlayer.increase_balance` on the player object at index `i`. -/
def increase_balance (players : List Player) (i : Nat) (amount : Int) : List Player :=
  players.set i { players.getD i default with
                  balance := (players.getD i default).balance + amount }

/-- `AbstractPlayer.decrease_balance` on the player object at index `i`. -/
def decrease_balance (players : List Player) (i : Nat) (amount : Int) : List Player :=
  players.set i { players.getD i default with
                  balance := (players.getD i default).balance - amount }

/-- `decide_to_buy`, dispatched on the player's concrete class:
impulsive always buys, demanding buys iff rent > 50, cautious buys iff
balance ≥ sell cost + 80, random buys according to the coin toss. -/
def decide_to_buy (player : Player) (property : Property) (coin : Bool) : Bool :=
  match player.behavior with
  | Behavior.impulsive => true
  | Behavior.demanding => decide (property.rent_cost > 50)
  | Behavior.cautious => decide (player.balance ≥ property.sell_cost + 80)
  | Behavior.random => coin

/-- `transfer(p_from, p_to, amount)`: if the two are not the same object,
credit `p_to` with `min(p_from.get_balance(), amount)` and then debit
`p_from` by the full `amount` (the debit is uncapped, so `p_from` may go
negative). Same-object transfers are a no-op. -/
def transfer (players : List Player) (p_from p_to : Nat) (amount : Int) : List Player :=
  if p_from ≠ p_to then
    decrease_balance
      (increase_balance players p_to (min (get_balance players p_from) amount))
      p_from amount
  else
    players

/-- `Board`: an ordered list of properties. -/
structure Board where
  properties : List Property
deriving DecidableEq

/-- `Board.length`. -/
def Board.length (b : Board) : Nat :=
  b.properties.length

/-- `Board.property_at`: Python list indexing `self.properties[board_position]`.
A negative index is first shifted by the length (Python semantics); if the
shifted index is still out of `[0, length)` an `IndexError` is raised. -/
def Board.property_at (b : Board) (board_position : Int) : Except PyError Property :=
  let j : Int := if board_position < 0 then board_position + b.properties.length
                 else board_position
  if 0 ≤ j ∧ j < b.properties.length then
    Except.ok (b.properties.getD j.toNat default)
  else
    Except.error PyError.indexError

/-- `Board.get_properties`. -/
def Board.get_properties (b : Board) : List Property :=
  b.properties

/-- Full mutable state of a `Game` object. -/
structure GameState where
  board : Board
  players : List Player
  current_player : Nat
  current_turn : Nat
  player_position : List Nat
  active_player : List Bool
deriving DecidableEq

/-- `Game.__init__`: current player 0, turn 1, all positions 0, all active. -/
def Game.init (board : Board) (players : List Player) : GameState :=
  { board := board
    players := players
    current_player := 0
    current_turn := 1
    player_position := players.map fun _ => 0
    active_player := players.map fun _ => true }

/-- Well-formedness of a game state: the per-player lists have the same
length as the player list, the current player index is in range, and the
board is non-empty.  (`Game.__init__` establishes this for a non-empty
player list and board; Python raises on the excluded degenerate states.) -/
def wf (g : GameState) : Prop :=
  g.players.length = g.player_position.length ∧
  g.players.length = g.active_player.length ∧
  g.current_player < g.players.length ∧
  0 < g.board.length

instance : DecidablePred wf := fun _ => by
  unfold wf; infer_instance

/-- `Game.has_winner`: the unique active player's index if exactly one player
is active, else `none` (Python returns the player object / `None`). -/
def has_winner (g : GameState) : Option Nat :=
  let active_players : List Nat :=
    (List.range g.players.length).filter fun i => g.active_player.getD i false
  if active_players.length = 1 then some (active_players.getD 0 0)
  else none

/-- Python iterable `max` over a list (raises on an empty list; the model
returns 0 there, a case the runner never reaches since it always has
players). -/
def list_max : List Int → Int
  | [] => 0
  | x :: xs => xs.foldl max x

/-- `Game.player_with_highest_balance`: index of the first player (in list
order) whose balance equals the maximum balance over ALL players of the
game, active or not. -/
def player_with_highest_balance (g : GameState) : Nat :=
  let max_balance := list_max (g.players.map Player.balance)
  g.players.findIdx fun p => p.balance = max_balance

/-- `Game.__stop_condtion` (sic): a winner exists or the turn counter has
reached 1000. -/
def stop_condtion (g : GameState) : Bool :=
  (has_winner g).isSome || decide (1000 ≤ g.current_turn)

/-- `Game.__next_player_turn`, made fuel-bounded: step to `(cur + 1) % n`
and recurse while the player there is inactive.  The Python original
recurses unboundedly; a fuel of `n` (one full cycle over the player list)
reaches every index, hence suffices whenever any player is active, and the
`none` result materialises exactly the nontermination of the original. -/
def next_player_search (active : List Bool) : Nat → Nat → Option Nat
  | _, 0 => none
  | cur, fuel + 1 =>
    let nxt := (cur + 1) % active.length
    if active.getD nxt false then some nxt
    else next_player_search active nxt fuel

/-- Total wrapper used by the turn: the fallback value is only reached when
no player is active at all, where the Python original never returns. -/
def next_player_turn (active : List Bool) (cur : Nat) : Nat :=
  (next_player_search active cur active.length).getD ((cur + 1) % active.length)

/-- `Game.__adjust_position_to_length`: when the position has run past the
end of the board, reduce it modulo the board length and report a completed
track. -/
def adjust_position_to_length (pos : Nat) (board_length : Nat) : Nat × Bool :=
  if board_length ≤ pos then (pos % board_length, true) else (pos, false)

/-- `Game.__apply_defeat_to`: mark the player inactive and clear the owner
of every board property whose owner is that player. -/
def apply_defeat_to (board : Board) (active : List Bool) (player_id : Nat) :
    Board × List Bool :=
  (⟨board.properties.map fun p =>
      if p.owner = some player_id then { p with owner := none } else p⟩,
   active.set player_id false)

/-- Steps 1–2 of `Game.__turn`: add the die roll to the current player's
position, wrap it modulo the board length, and credit the 100-unit pass-go
bonus when the track was completed. -/
def turn_move (g : GameState) (die : Nat) : GameState :=
  let pid := g.current_player
  let adj := adjust_position_to_length (g.player_position.getD pid 0 + die) g.board.length
  { g with
    player_position := g.player_position.set pid adj.1
    players := if adj.2 then increase_balance g.players pid 100 else g.players }

/-- Steps 3–5 of `Game.__turn`: look up the property at the current player's
position; if owned, pay rent to the owner and eliminate the current player
if the payment made their balance negative; if unowned, buy it when the
balance covers the sell cost and the strategy agrees. -/
def turn_resolve (g : GameState) (coin : Bool) : GameState :=
  let pid := g.current_player
  let pos := g.player_position.getD pid 0
  let property : Property :=
    match g.board.property_at (pos : Int) with
    | Except.ok p => p
    | Except.error _ => default
  match property.owner with
  | some owner_id =>
    let players := transfer g.players pid owner_id property.rent_cost
    if get_balance players pid < 0 then
      let defeat := apply_defeat_to g.board g.active_player pid
      { g with players := players, board := defeat.1, active_player := defeat.2 }
    else
      { g with players := players }
  | none =>
    if get_balance g.players pid ≥ property.sell_cost ∧
       decide_to_buy (g.players.getD pid default) property coin = true then
      { g with
        board := ⟨g.board.properties.set pos { property with owner := some pid }⟩
        players := decrease_balance g.players pid property.sell_cost }
    else
      g

/-- `Game.__turn`: move and bonus, rent/purchase resolution, turn counter
increment, and advance to the next active player. -/
def turn (g : GameState) (die : Nat) (coin : Bool) : GameState :=
  let gr := turn_resolve (turn_move g die) coin
  { board := gr.board
    players := gr.players
    current_player := next_player_turn gr.active_player gr.current_player
    current_turn := g.current_turn + 1
    player_position := gr.player_position
    active_player := gr.active_player }

/-- `Game.play`: run turns until the stop condition holds.  Each turn
increments `current_turn`, so `1000 - current_turn` decreases. -/
def play (dice : Nat → Nat) (coins : Nat → Bool) (g : GameState) : GameState :=
  if stop_condtion g then g
  else play dice coins (turn g (dice g.current_turn) (coins g.current_turn))
termination_by 1000 - g.current_turn
decreasing_by
  rename_i h
  have ht : (turn g (dice g.current_turn) (coins g.current_turn)).current_turn
      = g.current_turn + 1 := rfl
  simp only [stop_condtion, Bool.or_eq_true, decide_eq_true_eq, not_or] at h
  rw [ht]
  omega

/-- Win counters of `GameRunner.wins_per_behavior`: one counter per
`AbstractPlayer` subclass plus the counter keyed by `type(None)`. -/
structure WinCounts where
  impulsive : Nat
  demanding : Nat
  cautious : Nat
  random : Nat
  noneBucket : Nat
deriving DecidableEq

/-- `self.wins_per_behavior[type(winner)] += 1`: bump the counter for the
winner's class, or the `type(None)` bucket when there was no winner. -/
def bump_wins (w : WinCounts) : Option Behavior → WinCounts
  | none => { w with noneBucket := w.noneBucket + 1 }
  | some Behavior.impulsive => { w with impulsive := w.impulsive + 1 }
  | some Behavior.demanding => { w with demanding := w.demanding + 1 }
  | some Behavior.cautious => { w with cautious := w.cautious + 1 }
  | some Behavior.random => { w with random := w.random + 1 }

/-- Lookup of a per-class win counter. -/
def wins_of (w : WinCounts) : Behavior → Nat
  | Behavior.impulsive => w.impulsive
  | Behavior.demanding => w.demanding
  | Behavior.cautious => w.cautious
  | Behavior.random => w.random

/-- State of a `GameRunner` object.  `players` is the shared player list
also handed to every game (in Python the very same objects are mutated in
place; the model threads the updated list back into the runner).  `winner`
records, per game, the index of the recorded winner. -/
structure GameRunner where
  players : List Player
  max_sell_cost : Int
  max_rent_cost : Int
  games_simulated : Nat
  timed_out_games : Nat
  num_turns : List Nat
  winner : List Nat
  wins_per_behavior : WinCounts
deriving DecidableEq

/-- `GameRunner.__init__`. -/
def GameRunner.init (players : List Player) (max_sell_cost max_rent_cost : Int) :
    GameRunner :=
  { players := players
    max_sell_cost := max_sell_cost
    max_rent_cost := max_rent_cost
    games_simulated := 0
    timed_out_games := 0
    num_turns := []
    winner := []
    wins_per_behavior := ⟨0, 0, 0, 0, 0⟩ }

/-- `GameRunner.get_average_num_turns`: `sum(self.num_turns) / len(self.num_turns)`.
With no games recorded, Python's division raises `ZeroDivisionError`. -/
def get_average_num_turns (r : GameRunner) : Except PyError ℚ :=
  if r.num_turns.length = 0 then Except.error PyError.zeroDivisionError
  else Except.ok ((r.num_turns.sum : ℚ) / (r.num_turns.length : ℚ))

/-- `GameRunner.get_win_percentage_per_behavior`: divides each win counter
by `games_simulated` (raising `ZeroDivisionError` when that is 0) and pops
the `type(None)` bucket, leaving a map over the four player classes. -/
def get_win_percentage_per_behavior (r : GameRunner) : Except PyError (Behavior → ℚ) :=
  if r.games_simulated = 0 then Except.error PyError.zeroDivisionError
  else Except.ok fun b => (wins_of r.wins_per_behavior b : ℚ) / (r.games_simulated : ℚ)

/-- `GameRunner.get_timed_out_games`. -/
def get_timed_out_games (r : GameRunner) : Nat :=
  r.timed_out_games

/-- `GameRunner.play_game`: build a fresh game over a freshly generated
board (the board, being random, is an explicit input here) and the runner's
own player list — the players are NOT reset, their balances carry over from
the previous game — play it, and record the outcome.  A game without a
winner counts as timed out and records the player with the highest balance
as winner; the per-class win counter is keyed by `type(winner)`, which is
`type(None)` for a timed-out game even though a fallback winner was
recorded. -/
def play_game (r : GameRunner) (board : Board) (dice : Nat → Nat) (coins : Nat → Bool) :
    GameRunner :=
  let g := play dice coins (Game.init board r.players)
  let r1 := { r with players := g.players, games_simulated := r.games_simulated + 1 }
  let winner := has_winner g
  let r2 := match winner with
    | none => { r1 with
                timed_out_games := r1.timed_out_games + 1
                winner := r1.winner ++ [player_with_highest_balance g] }
    | some w => { r1 with winner := r1.winner ++ [w] }
  let r3 := { r2 with num_turns := r2.num_turns ++ [g.current_turn] }
  { r3 with
    wins_per_behavior :=
      bump_wins r3.wins_per_behavior
        (winner.map fun w => (g.players.getD w default).behavior) }

/-- Ownership invariant checked per property: the owner, when set, is the
index of one of the game's players and that player is still active.  (A
property has at most one owner by construction of the `owner` field.) -/
def owner_okb (g : GameState) (p : Property) : Bool :=
  match p.owner with
  | none => true
  | some j => decide (j < g.players.length) && g.active_player.getD j false

/-- Ownership invariant of a game state: every property of the board
satisfies `owner_okb`. -/
def owners_ok (g : GameState) : Prop :=
  ∀ p ∈ g.board.properties, owner_okb g p = true

instance : DecidablePred owners_ok := fun _ => by
  unfold owners_ok; infer_instance

/-! ## Helper lemmas -/

theorem getD_set_self {α} (l : List α) (i : Nat) (a d : α) (h : i < l.length) :
    (l.set i a).getD i d = a := by
  rw [List.getD_eq_getElem?_getD, List.getElem?_set_self (by simpa using h)]
  rfl

theorem getD_set_ne {α} (l : List α) (i j : Nat) (a d : α) (h : i ≠ j) :
    (l.set i a).getD j d = l.getD j d := by
  rw [List.getD_eq_getElem?_getD, List.getElem?_set_ne h, ← List.getD_eq_getElem?_getD]

theorem getD_eq_get {α} (l : List α) (i : Nat) (d : α) (h : i < l.length) :
    l.getD i d = l[i] := by
  rw [List.getD_eq_getElem?_getD, List.getElem?_eq_getElem h]
  rfl

theorem length_increase_balance (ps : List Player) (i : Nat) (a : Int) :
    (increase_balance ps i a).length = ps.length := by
  simp [increase_balance]

theorem length_decrease_balance (ps : List Player) (i : Nat) (a : Int) :
    (decrease_balance ps i a).length = ps.length := by
  simp [decrease_balance]

theorem length_transfer (ps : List Player) (i j : Nat) (a : Int) :
    (transfer ps i j a).length = ps.length := by
  unfold transfer
  split <;> simp [length_decrease_balance, length_increase_balance]

theorem get_balance_increase_self (ps : List Player) (i : Nat) (a : Int)
    (h : i < ps.length) :
    get_balance (increase_balance ps i a) i = get_balance ps i + a := by
  unfold get_balance increase_balance
  rw [getD_set_self _ _ _ _ h]

theorem get_balance_increase_ne (ps : List Player) (i j : Nat) (a : Int)
    (h : i ≠ j) :
    get_balance (increase_balance ps i a) j = get_balance ps j := by
  unfold get_balance increase_balance
  rw [getD_set_ne _ _ _ _ _ h]

theorem get_balance_decrease_self (ps : List Player) (i : Nat) (a : Int)
    (h : i < ps.length) :
    get_balance (decrease_balance ps i a) i = get_balance ps i - a := by
  unfold get_balance decrease_balance
  rw [getD_set_self _ _ _ _ h]

theorem get_balance_decrease_ne (ps : List Player) (i j : Nat) (a : Int)
    (h : i ≠ j) :
    get_balance (decrease_balance ps i a) j = get_balance ps j := by
  unfold get_balance decrease_balance
  rw [getD_set_ne _ _ _ _ _ h]

theorem transfer_balances (players : List Player) (i j : Nat) (amount : Int)
    (hij : i ≠ j) (hi : i < players.length) (hj : j < players.length) :
    get_balance (transfer players i j amount) j
      = get_balance players j + min (get_balance players i) amount ∧
    get_balance (transfer players i j amount) i
      = get_balance players i - amount := by
  unfold transfer
  rw [if_pos hij]
  constructor
  · rw [get_balance_decrease_ne _ _ _ _ hij,
        get_balance_increase_self _ _ _ hj]
  · rw [get_balance_decrease_self _ _ _
        (by rw [length_increase_balance]; exact hi),
        get_balance_increase_ne _ _ _ _ (Ne.symm hij)]

/-! ## Claim theorems -/

/-- C1: `transfer(A, B, amount)` is a no-op when A and B are the same
identity; otherwise it increases B's balance by exactly
`min(A's pre-transfer balance, amount)` and decreases A's balance by the
full nominal `amount`, with no lower bound on the result. -/
theorem c1_transfer_semantics (players : List Player) (i j : Nat) (amount : Int)
    (hi : i < players.length) (hj : j < players.length) :
    (i = j → transfer players i j amount = players) ∧
    (i ≠ j →
      get_balance (transfer players i j amount) j
        = get_balance players j + min (get_balance players i) amount ∧
      get_balance (transfer players i j amount) i
        = get_balance players i - amount) := by
  constructor
  · intro h
    simp [transfer, h]
  · intro h
    exact transfer_balances players i j amount h hi hj

/-- C1 witness: a concrete transfer of 50 from a player with balance 300
(index 0) to a player with balance 10 (index 1). -/
theorem c1_transfer_semantics_witness :
    ((0 : Nat) = 1 →
      transfer [⟨300, Behavior.impulsive⟩, ⟨10, Behavior.demanding⟩] 0 1 50
        = [⟨300, Behavior.impulsive⟩, ⟨10, Behavior.demanding⟩]) ∧
    ((0 : Nat) ≠ 1 →
      get_balance (transfer [⟨300, Behavior.impulsive⟩, ⟨10, Behavior.demanding⟩] 0 1 50) 1
        = get_balance [⟨300, Behavior.impulsive⟩, ⟨10, Behavior.demanding⟩] 1
          + min (get_balance [⟨300, Behavior.impulsive⟩, ⟨10, Behavior.demanding⟩] 0) 50 ∧
      get_balance (transfer [⟨300, Behavior.impulsive⟩, ⟨10, Behavior.demanding⟩] 0 1 50) 0
        = get_balance [⟨300, Behavior.impulsive⟩, ⟨10, Behavior.demanding⟩] 0 - 50) :=
  c1_transfer_semantics [⟨300, Behavior.impulsive⟩, ⟨10, Behavior.demanding⟩] 0 1 50
    (by decide) (by decide)

/-- C9: when the payer's pre-transfer balance is negative and the nominal
amount is non-negative, the receiver is credited that negative balance, so
the receiver's balance strictly decreases. -/
theorem c9_negative_payer_drains_receiver (players : List Player) (i j : Nat)
    (amount : Int) (hij : i ≠ j) (hi : i < players.length) (hj : j < players.length)
    (hneg : get_balance players i < 0) (hamt : 0 ≤ amount) :
    get_balance (transfer players i j amount) j
      = get_balance players j + get_balance players i ∧
    get_balance (transfer players i j amount) j < get_balance players j := by
  have h := (transfer_balances players i j amount hij hi hj).1
  have hmin : min (get_balance players i) amount = get_balance players i :=
    min_eq_left (by omega)
  rw [hmin] at h
  exact ⟨h, by omega⟩

/-- C9 witness: rent of 30 paid by a player whose balance is already -5
takes 5 away from the receiver. -/
theorem c9_negative_payer_drains_receiver_witness :
    get_balance (transfer [⟨-5, Behavior.impulsive⟩, ⟨100, Behavior.demanding⟩] 0 1 30) 1
      = get_balance [⟨-5, Behavior.impulsive⟩, ⟨100, Behavior.demanding⟩] 1
        + get_balance [⟨-5, Behavior.impulsive⟩, ⟨100, Behavior.demanding⟩] 0 ∧
    get_balance (transfer [⟨-5, Behavior.impulsive⟩, ⟨100, Behavior.demanding⟩] 0 1 30) 1
      < get_balance [⟨-5, Behavior.impulsive⟩, ⟨100, Behavior.demanding⟩] 1 :=
  c9_negative_payer_drains_receiver
    [⟨-5, Behavior.impulsive⟩, ⟨100, Behavior.demanding⟩] 0 1 30
    (by decide) (by decide) (by decide) (by decide) (by decide)

/-- C2: with zero games played, both statistics accessors hit Python's
bare division and raise an unhandled `ZeroDivisionError` instead of the
explicit "no data" error or documented sentinel the design requires. -/
theorem c2_zero_games_division_crash :
    get_average_num_turns
        (GameRunner.init
          [⟨300, Behavior.impulsive⟩, ⟨300, Behavior.demanding⟩,
           ⟨300, Behavior.cautious⟩, ⟨300, Behavior.random⟩] 300 80)
      = Except.error PyError.zeroDivisionError ∧
    get_win_percentage_per_behavior
        (GameRunner.init
          [⟨300, Behavior.impulsive⟩, ⟨300, Behavior.demanding⟩,
           ⟨300, Behavior.cautious⟩, ⟨300, Behavior.random⟩] 300 80)
      = Except.error PyError.zeroDivisionError :=
  ⟨rfl, rfl⟩

/-- C3 counterexample: on a two-property board, `property_at (-1)` silently
returns the last property (Python negative indexing) instead of failing
with an IndexError, refuting the claim for the out-of-range index -1. -/
theorem c3_negative_index_counterexample :
    Board.property_at ⟨[⟨10, 1, none⟩, ⟨20, 2, none⟩]⟩ (-1)
      = Except.ok ⟨20, 2, none⟩ := by
  rfl

/-- C3 amended: `property_at` fails with an IndexError exactly for indices
`≥ length` or `< -length`; indices in `[0, length)` resolve directly and
negative indices in `[-length, -1]` silently resolve to properties counted
from the end of the board. -/
theorem c3_property_at_amended (b : Board) (i : Int) :
    (0 ≤ i → i < (b.properties.length : Int) →
      b.property_at i = Except.ok (b.properties.getD i.toNat default)) ∧
    (-(b.properties.length : Int) ≤ i → i < 0 →
      b.property_at i
        = Except.ok (b.properties.getD (i + (b.properties.length : Int)).toNat default)) ∧
    (i < -(b.properties.length : Int) ∨ (b.properties.length : Int) ≤ i →
      b.property_at i = Except.error PyError.indexError) := by
  refine ⟨fun h1 h2 => ?_, fun h1 h2 => ?_, fun h => ?_⟩
  · simp only [Board.property_at]
    rw [if_neg (show ¬ i < 0 by omega), if_pos ⟨h1, h2⟩]
  · simp only [Board.property_at]
    rw [if_pos h2, if_pos ⟨by omega, by omega⟩]
  · rcases h with h | h
    · simp only [Board.property_at]
      rw [if_pos (show i < 0 by omega),
          if_neg (show ¬ (0 ≤ i + (b.properties.length : Int) ∧
            i + (b.properties.length : Int) < (b.properties.length : Int)) by
            rintro ⟨h1, h2⟩; omega)]
    · simp only [Board.property_at]
      rw [if_neg (show ¬ i < 0 by omega),
          if_neg (show ¬ (0 ≤ i ∧ i < (b.properties.length : Int)) by
            rintro ⟨h1, h2⟩; omega)]

/-- C3 amended witness: on a two-property board, index 1 resolves, index -1
resolves from the end, and index 2 (and -3) raise IndexError. -/
theorem c3_property_at_amended_witness :
    Board.property_at ⟨[⟨10, 1, none⟩, ⟨20, 2, none⟩]⟩ 1
      = Except.ok ((⟨[⟨10, 1, none⟩, ⟨20, 2, none⟩]⟩ : Board).properties.getD
          (Int.toNat 1) default) ∧
    Board.property_at ⟨[⟨10, 1, none⟩, ⟨20, 2, none⟩]⟩ (-1)
      = Except.ok ((⟨[⟨10, 1, none⟩, ⟨20, 2, none⟩]⟩ : Board).properties.getD
          (Int.toNat (-1 + 2)) default) ∧
    Board.property_at ⟨[⟨10, 1, none⟩, ⟨20, 2, none⟩]⟩ 2
      = Except.error PyError.indexError :=
  ⟨(c3_property_at_amended ⟨[⟨10, 1, none⟩, ⟨20, 2, none⟩]⟩ 1).1
      (by decide) (by decide),
   (c3_property_at_amended ⟨[⟨10, 1, none⟩, ⟨20, 2, none⟩]⟩ (-1)).2.1
      (by decide) (by decide),
   (c3_property_at_amended ⟨[⟨10, 1, none⟩, ⟨20, 2, none⟩]⟩ 2).2.2
      (Or.inr (by decide))⟩


theorem property_at_nat (b : Board) (pos : Nat) (h : pos < b.length) :
    b.property_at (pos : Int) = Except.ok (b.properties.getD pos default) := by
  have h' : pos < b.properties.length := h
  simp only [Board.property_at]
  rw [if_neg (show ¬ (pos : Int) < 0 by omega)]
  rw [if_pos (show (0 : Int) ≤ (pos : Int) ∧
      (pos : Int) < (b.properties.length : Int) by constructor <;> omega)]
  simp

theorem turn_move_wrap (g : GameState) (die : Nat)
    (hw : g.board.length ≤ g.player_position.getD g.current_player 0 + die) :
    turn_move g die
      = { g with
          player_position := g.player_position.set g.current_player
            ((g.player_position.getD g.current_player 0 + die) % g.board.length)
          players := increase_balance g.players g.current_player 100 } := by
  have ha : adjust_position_to_length
      (g.player_position.getD g.current_player 0 + die) g.board.length
      = ((g.player_position.getD g.current_player 0 + die) % g.board.length, true) := by
    unfold adjust_position_to_length
    rw [if_pos hw]
  simp only [turn_move]
  rw [ha]
  rfl

theorem turn_move_nowrap (g : GameState) (die : Nat)
    (hw : g.player_position.getD g.current_player 0 + die < g.board.length) :
    turn_move g die
      = { g with
          player_position := g.player_position.set g.current_player
            (g.player_position.getD g.current_player 0 + die) } := by
  have ha : adjust_position_to_length
      (g.player_position.getD g.current_player 0 + die) g.board.length
      = (g.player_position.getD g.current_player 0 + die, false) := by
    unfold adjust_position_to_length
    rw [if_neg (by omega)]
  simp only [turn_move]
  rw [ha]
  rfl

theorem turn_resolve_unowned_buy (g : GameState) (coin : Bool)
    (hpos : g.player_position.getD g.current_player 0 < g.board.length)
    (hun : (g.board.properties.getD (g.player_position.getD g.current_player 0) default).owner
      = none)
    (hbuy : get_balance g.players g.current_player
        ≥ (g.board.properties.getD (g.player_position.getD g.current_player 0) default).sell_cost ∧
      decide_to_buy (g.players.getD g.current_player default)
        (g.board.properties.getD (g.player_position.getD g.current_player 0) default) coin
        = true) :
    turn_resolve g coin
      = { g with
          board := ⟨g.board.properties.set (g.player_position.getD g.current_player 0)
            { g.board.properties.getD (g.player_position.getD g.current_player 0) default with
              owner := some g.current_player }⟩
          players := decrease_balance g.players g.current_player
            (g.board.properties.getD
              (g.player_position.getD g.current_player 0) default).sell_cost } := by
  simp only [turn_resolve]
  rw [property_at_nat _ _ hpos]
  dsimp only
  rw [hun]
  dsimp only
  rw [if_pos hbuy]

theorem turn_resolve_unowned_nobuy (g : GameState) (coin : Bool)
    (hpos : g.player_position.getD g.current_player 0 < g.board.length)
    (hun : (g.board.properties.getD (g.player_position.getD g.current_player 0) default).owner
      = none)
    (hbuy : ¬ (get_balance g.players g.current_player
        ≥ (g.board.properties.getD (g.player_position.getD g.current_player 0) default).sell_cost ∧
      decide_to_buy (g.players.getD g.current_player default)
        (g.board.properties.getD (g.player_position.getD g.current_player 0) default) coin
        = true)) :
    turn_resolve g coin = g := by
  simp only [turn_resolve]
  rw [property_at_nat _ _ hpos]
  dsimp only
  rw [hun]
  dsimp only
  rw [if_neg hbuy]

theorem turn_resolve_owned_defeat (g : GameState) (coin : Bool) (oid : Nat)
    (hpos : g.player_position.getD g.current_player 0 < g.board.length)
    (hown : (g.board.properties.getD (g.player_position.getD g.current_player 0) default).owner
      = some oid)
    (hneg : get_balance (transfer g.players g.current_player oid
        (g.board.properties.getD
          (g.player_position.getD g.current_player 0) default).rent_cost)
        g.current_player < 0) :
    turn_resolve g coin
      = { g with
          players := transfer g.players g.current_player oid
            (g.board.properties.getD
              (g.player_position.getD g.current_player 0) default).rent_cost
          board := (apply_defeat_to g.board g.active_player g.current_player).1
          active_player := (apply_defeat_to g.board g.active_player g.current_player).2 } := by
  simp only [turn_resolve]
  rw [property_at_nat _ _ hpos]
  dsimp only
  rw [hown]
  dsimp only
  rw [if_pos hneg]

theorem turn_resolve_owned_survive (g : GameState) (coin : Bool) (oid : Nat)
    (hpos : g.player_position.getD g.current_player 0 < g.board.length)
    (hown : (g.board.properties.getD (g.player_position.getD g.current_player 0) default).owner
      = some oid)
    (hneg : ¬ get_balance (transfer g.players g.current_player oid
        (g.board.properties.getD
          (g.player_position.getD g.current_player 0) default).rent_cost)
        g.current_player < 0) :
    turn_resolve g coin
      = { g with
          players := transfer g.players g.current_player oid
            (g.board.properties.getD
              (g.player_position.getD g.current_player 0) default).rent_cost } := by
  simp only [turn_resolve]
  rw [property_at_nat _ _ hpos]
  dsimp only
  rw [hown]
  dsimp only
  rw [if_neg hneg]

/-- C5: in the movement step of a turn, the current player's position wraps
modulo the board length exactly when the raw position (old position plus
die roll) reaches the board length, and the 100-unit pass-go bonus is
credited exactly in that case; otherwise the position is left as the sum
and the balance is untouched.  (`turn` is `turn_resolve` after `turn_move`;
the claim concerns the movement step.) -/
theorem c5_pass_go_bonus (g : GameState) (die : Nat) (h : wf g) :
    (g.board.length ≤ g.player_position.getD g.current_player 0 + die →
      (turn_move g die).player_position.getD g.current_player 0
        = (g.player_position.getD g.current_player 0 + die) % g.board.length ∧
      get_balance (turn_move g die).players g.current_player
        = get_balance g.players g.current_player + 100) ∧
    (g.player_position.getD g.current_player 0 + die < g.board.length →
      (turn_move g die).player_position.getD g.current_player 0
        = g.player_position.getD g.current_player 0 + die ∧
      get_balance (turn_move g die).players g.current_player
        = get_balance g.players g.current_player) := by
  obtain ⟨hlp, hla, hcp, hb⟩ := h
  constructor
  · intro hw
    rw [turn_move_wrap g die hw]
    exact ⟨getD_set_self _ _ _ _ (by omega), get_balance_increase_self _ _ _ hcp⟩
  · intro hw
    rw [turn_move_nowrap g die hw]
    exact ⟨getD_set_self _ _ _ _ (by omega), rfl⟩

/-- C5 witness: a single impulsive player on a two-cell board rolling a 5
from position 0 wraps to position 1 and is credited the 100 bonus. -/
theorem c5_pass_go_bonus_witness :
    ((Game.init ⟨[⟨60, 10, none⟩, ⟨70, 20, none⟩]⟩ [⟨300, Behavior.impulsive⟩]).board.length
        ≤ (Game.init ⟨[⟨60, 10, none⟩, ⟨70, 20, none⟩]⟩
            [⟨300, Behavior.impulsive⟩]).player_position.getD 0 0 + 5 →
      (turn_move (Game.init ⟨[⟨60, 10, none⟩, ⟨70, 20, none⟩]⟩
          [⟨300, Behavior.impulsive⟩]) 5).player_position.getD 0 0
        = ((Game.init ⟨[⟨60, 10, none⟩, ⟨70, 20, none⟩]⟩
            [⟨300, Behavior.impulsive⟩]).player_position.getD 0 0 + 5)
          % (Game.init ⟨[⟨60, 10, none⟩, ⟨70, 20, none⟩]⟩
              [⟨300, Behavior.impulsive⟩]).board.length ∧
      get_balance (turn_move (Game.init ⟨[⟨60, 10, none⟩, ⟨70, 20, none⟩]⟩
          [⟨300, Behavior.impulsive⟩]) 5).players 0
        = get_balance (Game.init ⟨[⟨60, 10, none⟩, ⟨70, 20, none⟩]⟩
            [⟨300, Behavior.impulsive⟩]).players 0 + 100) ∧
    ((Game.init ⟨[⟨60, 10, none⟩, ⟨70, 20, none⟩]⟩
        [⟨300, Behavior.impulsive⟩]).player_position.getD 0 0 + 5
        < (Game.init ⟨[⟨60, 10, none⟩, ⟨70, 20, none⟩]⟩
            [⟨300, Behavior.impulsive⟩]).board.length →
      (turn_move (Game.init ⟨[⟨60, 10, none⟩, ⟨70, 20, none⟩]⟩
          [⟨300, Behavior.impulsive⟩]) 5).player_position.getD 0 0
        = (Game.init ⟨[⟨60, 10, none⟩, ⟨70, 20, none⟩]⟩
            [⟨300, Behavior.impulsive⟩]).player_position.getD 0 0 + 5 ∧
      get_balance (turn_move (Game.init ⟨[⟨60, 10, none⟩, ⟨70, 20, none⟩]⟩
          [⟨300, Behavior.impulsive⟩]) 5).players 0
        = get_balance (Game.init ⟨[⟨60, 10, none⟩, ⟨70, 20, none⟩]⟩
            [⟨300, Behavior.impulsive⟩]).players 0) :=
  c5_pass_go_bonus (Game.init ⟨[⟨60, 10, none⟩, ⟨70, 20, none⟩]⟩
    [⟨300, Behavior.impulsive⟩]) 5 (by decide)

/-- C6: in the resolution step of a turn, when the current player stands on
an unowned property, the purchase happens exactly when the balance covers
the sell cost and the strategy agrees; then the player becomes owner and
pays exactly the sell cost, and otherwise the whole state (in particular
the property's owner and the player's balance) is unchanged. -/
theorem c6_buy_unowned (g : GameState) (coin : Bool) (h : wf g)
    (hpos : g.player_position.getD g.current_player 0 < g.board.length)
    (hun : (g.board.properties.getD (g.player_position.getD g.current_player 0) default).owner
      = none) :
    ((get_balance g.players g.current_player
        ≥ (g.board.properties.getD (g.player_position.getD g.current_player 0) default).sell_cost ∧
      decide_to_buy (g.players.getD g.current_player default)
        (g.board.properties.getD (g.player_position.getD g.current_player 0) default) coin
        = true) →
      ((turn_resolve g coin).board.properties.getD
          (g.player_position.getD g.current_player 0) default).owner
        = some g.current_player ∧
      get_balance (turn_resolve g coin).players g.current_player
        = get_balance g.players g.current_player
          - (g.board.properties.getD (g.player_position.getD g.current_player 0) default).sell_cost) ∧
    (¬ (get_balance g.players g.current_player
        ≥ (g.board.properties.getD (g.player_position.getD g.current_player 0) default).sell_cost ∧
      decide_to_buy (g.players.getD g.current_player default)
        (g.board.properties.getD (g.player_position.getD g.current_player 0) default) coin
        = true) →
      turn_resolve g coin = g) := by
  obtain ⟨hlp, hla, hcp, hb⟩ := h
  have hpp : g.player_position.getD g.current_player 0 < g.board.properties.length := hpos
  constructor
  · intro hbuy
    rw [turn_resolve_unowned_buy g coin hpos hun hbuy]
    refine ⟨?_, get_balance_decrease_self _ _ _ hcp⟩
    dsimp only
    rw [getD_set_self _ _ _ _ hpp]
  · intro hbuy
    exact turn_resolve_unowned_nobuy g coin hpos hun hbuy

/-- C6 witness: a lone impulsive player with balance 300 standing on an
unowned property of sell cost 60 buys it and pays exactly 60. -/
theorem c6_buy_unowned_witness :
    ((get_balance (Game.init ⟨[⟨60, 10, none⟩]⟩ [⟨300, Behavior.impulsive⟩]).players 0
        ≥ ((Game.init ⟨[⟨60, 10, none⟩]⟩
            [⟨300, Behavior.impulsive⟩]).board.properties.getD 0 default).sell_cost ∧
      decide_to_buy ((Game.init ⟨[⟨60, 10, none⟩]⟩
            [⟨300, Behavior.impulsive⟩]).players.getD 0 default)
        ((Game.init ⟨[⟨60, 10, none⟩]⟩
            [⟨300, Behavior.impulsive⟩]).board.properties.getD 0 default) true = true) →
      ((turn_resolve (Game.init ⟨[⟨60, 10, none⟩]⟩ [⟨300, Behavior.impulsive⟩])
          true).board.properties.getD 0 default).owner = some 0 ∧
      get_balance (turn_resolve (Game.init ⟨[⟨60, 10, none⟩]⟩
          [⟨300, Behavior.impulsive⟩]) true).players 0
        = get_balance (Game.init ⟨[⟨60, 10, none⟩]⟩ [⟨300, Behavior.impulsive⟩]).players 0
          - ((Game.init ⟨[⟨60, 10, none⟩]⟩
              [⟨300, Behavior.impulsive⟩]).board.properties.getD 0 default).sell_cost) ∧
    (¬ (get_balance (Game.init ⟨[⟨60, 10, none⟩]⟩ [⟨300, Behavior.impulsive⟩]).players 0
        ≥ ((Game.init ⟨[⟨60, 10, none⟩]⟩
            [⟨300, Behavior.impulsive⟩]).board.properties.getD 0 default).sell_cost ∧
      decide_to_buy ((Game.init ⟨[⟨60, 10, none⟩]⟩
            [⟨300, Behavior.impulsive⟩]).players.getD 0 default)
        ((Game.init ⟨[⟨60, 10, none⟩]⟩
            [⟨300, Behavior.impulsive⟩]).board.properties.getD 0 default) true = true) →
      turn_resolve (Game.init ⟨[⟨60, 10, none⟩]⟩ [⟨300, Behavior.impulsive⟩]) true
        = Game.init ⟨[⟨60, 10, none⟩]⟩ [⟨300, Behavior.impulsive⟩]) :=
  c6_buy_unowned (Game.init ⟨[⟨60, 10, none⟩]⟩ [⟨300, Behavior.impulsive⟩]) true
    (by decide) (by decide) (by decide)

theorem owner_okb_congr (g1 g2 : GameState) (p : Property)
    (hl : g1.players.length = g2.players.length)
    (ha : g1.active_player = g2.active_player) :
    owner_okb g1 p = owner_okb g2 p := by
  unfold owner_okb
  cases p.owner <;> simp [hl, ha]

theorem owners_ok_congr (g1 g2 : GameState)
    (hb : g1.board = g2.board)
    (hl : g1.players.length = g2.players.length)
    (ha : g1.active_player = g2.active_player)
    (h : owners_ok g2) : owners_ok g1 := by
  intro p hp
  rw [owner_okb_congr g1 g2 p hl ha]
  rw [hb] at hp
  exact h p hp

theorem turn_move_players_length (g : GameState) (die : Nat) :
    (turn_move g die).players.length = g.players.length := by
  simp only [turn_move]
  split <;> simp [increase_balance]

theorem turn_move_positions_length (g : GameState) (die : Nat) :
    (turn_move g die).player_position.length = g.player_position.length := by
  simp [turn_move]

theorem wf_turn_move (g : GameState) (die : Nat) (h : wf g) : wf (turn_move g die) := by
  obtain ⟨h1, h2, h3, h4⟩ := h
  refine ⟨?_, ?_, ?_, ?_⟩
  · rw [turn_move_players_length, turn_move_positions_length]
    exact h1
  · rw [turn_move_players_length]
    exact h2
  · rw [turn_move_players_length]
    exact h3
  · exact h4

theorem turn_move_pos_lt (g : GameState) (die : Nat) (h : wf g) :
    (turn_move g die).player_position.getD g.current_player 0 < g.board.length := by
  obtain ⟨h1, h2, h3, h4⟩ := h
  by_cases hw : g.board.length ≤ g.player_position.getD g.current_player 0 + die
  · rw [turn_move_wrap g die hw]
    dsimp only
    rw [getD_set_self _ _ _ _ (by omega)]
    exact Nat.mod_lt _ h4
  · rw [turn_move_nowrap g die (by omega)]
    dsimp only
    rw [getD_set_self _ _ _ _ (by omega)]
    omega

theorem owners_ok_turn_resolve (g : GameState) (coin : Bool) (h : wf g)
    (hpos : g.player_position.getD g.current_player 0 < g.board.length)
    (hact : g.active_player.getD g.current_player false = true)
    (hok : owners_ok g) : owners_ok (turn_resolve g coin) := by
  obtain ⟨hlp, hla, hcp, hb⟩ := h
  rcases ho : (g.board.properties.getD
      (g.player_position.getD g.current_player 0) default).owner with _ | oid
  · by_cases hbuy : (get_balance g.players g.current_player
        ≥ (g.board.properties.getD
            (g.player_position.getD g.current_player 0) default).sell_cost ∧
      decide_to_buy (g.players.getD g.current_player default)
        (g.board.properties.getD (g.player_position.getD g.current_player 0) default) coin
        = true)
    · rw [turn_resolve_unowned_buy g coin hpos ho hbuy]
      intro p hp
      dsimp only at hp ⊢
      rcases List.mem_or_eq_of_mem_set hp with hmem | heq
      · have hcongr : owner_okb
            { g with
              board := ⟨g.board.properties.set (g.player_position.getD g.current_player 0)
                { g.board.properties.getD (g.player_position.getD g.current_player 0) default with
                  owner := some g.current_player }⟩
              players := decrease_balance g.players g.current_player
                (g.board.properties.getD
                  (g.player_position.getD g.current_player 0) default).sell_cost } p
            = owner_okb g p := by
          refine owner_okb_congr _ _ _ ?_ rfl
          dsimp only
          exact length_decrease_balance _ _ _
        rw [hcongr]
        exact hok p hmem
      · subst heq
        unfold owner_okb
        dsimp only
        simp only [Bool.and_eq_true, decide_eq_true_eq]
        constructor
        · rw [length_decrease_balance]
          exact hcp
        · exact hact
    · rw [turn_resolve_unowned_nobuy g coin hpos ho hbuy]
      exact hok
  · by_cases hneg : get_balance (transfer g.players g.current_player oid
        (g.board.properties.getD
          (g.player_position.getD g.current_player 0) default).rent_cost)
        g.current_player < 0
    · rw [turn_resolve_owned_defeat g coin oid hpos ho hneg]
      intro p hp
      dsimp only [apply_defeat_to] at hp ⊢
      rw [List.mem_map] at hp
      obtain ⟨q, hq, rfl⟩ := hp
      by_cases hqo : q.owner = some g.current_player
      · rw [if_pos hqo]
        unfold owner_okb
        rfl
      · rw [if_neg hqo]
        have h0 := hok q hq
        unfold owner_okb at h0 ⊢
        rcases hqow : q.owner with _ | j
        · rfl
        · rw [hqow] at h0
          have hne : g.current_player ≠ j := by
            intro e
            exact hqo (by rw [hqow, e])
          simp only [Bool.and_eq_true, decide_eq_true_eq] at h0
          dsimp only
          simp only [Bool.and_eq_true, decide_eq_true_eq]
          constructor
          · rw [length_transfer]
            exact h0.1
          · rw [getD_set_ne _ _ _ _ _ hne]
            exact h0.2
    · rw [turn_resolve_owned_survive g coin oid hpos ho hneg]
      refine owners_ok_congr _ g rfl ?_ rfl hok
      dsimp only
      exact length_transfer _ _ _ _

theorem owners_ok_turn (g : GameState) (die : Nat) (coin : Bool) (h : wf g)
    (hact : g.active_player.getD g.current_player false = true)
    (hok : owners_ok g) : owners_ok (turn g die coin) := by
  have h1 : wf (turn_move g die) := wf_turn_move g die h
  have hok1 : owners_ok (turn_move g die) :=
    owners_ok_congr _ g rfl (turn_move_players_length g die) rfl hok
  have hact1 : (turn_move g die).active_player.getD
      (turn_move g die).current_player false = true := hact
  have hpos1 : (turn_move g die).player_position.getD
      (turn_move g die).current_player 0 < (turn_move g die).board.length :=
    turn_move_pos_lt g die h
  have hok2 : owners_ok (turn_resolve (turn_move g die) coin) :=
    owners_ok_turn_resolve (turn_move g die) coin h1 hpos1 hact1 hok1
  exact owners_ok_congr (turn g die coin) (turn_resolve (turn_move g die) coin)
    rfl rfl rfl hok2

/-- C7: ownership is exclusive (`owner : Option Nat` holds at most one
player) and, in every reachable state, an owner is an active player of the
game: the invariant holds for a freshly initialised game over a freshly
generated (all-unowned) board and is preserved by every turn; moreover
`apply_defeat_to` — run in the same step that detects a negative balance
after rent — clears the owner of every property owned by the defeated
player and marks that player inactive. -/
theorem c7_owner_invariant (board : Board) (players : List Player)
    (g : GameState) (die : Nat) (coin : Bool)
    (hwf : wf g) (hact : g.active_player.getD g.current_player false = true)
    (hok : owners_ok g)
    (hfresh : ∀ p ∈ board.properties, p.owner = none) :
    owners_ok (Game.init board players) ∧
    owners_ok (turn g die coin) ∧
    (∀ p ∈ (apply_defeat_to g.board g.active_player g.current_player).1.properties,
      p.owner ≠ some g.current_player) ∧
    (apply_defeat_to g.board g.active_player g.current_player).2.getD
      g.current_player false = false := by
  refine ⟨?_, owners_ok_turn g die coin hwf hact hok, ?_, ?_⟩
  · intro p hp
    have hp' : p ∈ board.properties := hp
    unfold owner_okb
    rw [hfresh p hp']
  · intro p hp
    dsimp only [apply_defeat_to] at hp
    rw [List.mem_map] at hp
    obtain ⟨q, hq, rfl⟩ := hp
    by_cases hqo : q.owner = some g.current_player
    · rw [if_pos hqo]
      simp
    · rw [if_neg hqo]
      exact hqo
  · obtain ⟨hlp, hla, hcp, hb⟩ := hwf
    dsimp only [apply_defeat_to]
    rw [getD_set_self _ _ _ _ (by omega)]

/-- C7 witness: a two-player game on a one-property unowned board. -/
theorem c7_owner_invariant_witness :
    owners_ok (Game.init ⟨[⟨60, 10, none⟩]⟩
      [⟨300, Behavior.impulsive⟩, ⟨300, Behavior.demanding⟩]) ∧
    owners_ok (turn (Game.init ⟨[⟨60, 10, none⟩]⟩
      [⟨300, Behavior.impulsive⟩, ⟨300, Behavior.demanding⟩]) 1 true) ∧
    (∀ p ∈ (apply_defeat_to
        (Game.init ⟨[⟨60, 10, none⟩]⟩
          [⟨300, Behavior.impulsive⟩, ⟨300, Behavior.demanding⟩]).board
        (Game.init ⟨[⟨60, 10, none⟩]⟩
          [⟨300, Behavior.impulsive⟩, ⟨300, Behavior.demanding⟩]).active_player
        (Game.init ⟨[⟨60, 10, none⟩]⟩
          [⟨300, Behavior.impulsive⟩, ⟨300, Behavior.demanding⟩]).current_player).1.properties,
      p.owner ≠ some (Game.init ⟨[⟨60, 10, none⟩]⟩
        [⟨300, Behavior.impulsive⟩, ⟨300, Behavior.demanding⟩]).current_player) ∧
    (apply_defeat_to
        (Game.init ⟨[⟨60, 10, none⟩]⟩
          [⟨300, Behavior.impulsive⟩, ⟨300, Behavior.demanding⟩]).board
        (Game.init ⟨[⟨60, 10, none⟩]⟩
          [⟨300, Behavior.impulsive⟩, ⟨300, Behavior.demanding⟩]).active_player
        (Game.init ⟨[⟨60, 10, none⟩]⟩
          [⟨300, Behavior.impulsive⟩, ⟨300, Behavior.demanding⟩]).current_player).2.getD
      (Game.init ⟨[⟨60, 10, none⟩]⟩
        [⟨300, Behavior.impulsive⟩, ⟨300, Behavior.demanding⟩]).current_player false
      = false :=
  c7_owner_invariant ⟨[⟨60, 10, none⟩]⟩
    [⟨300, Behavior.impulsive⟩, ⟨300, Behavior.demanding⟩]
    (Game.init ⟨[⟨60, 10, none⟩]⟩
      [⟨300, Behavior.impulsive⟩, ⟨300, Behavior.demanding⟩]) 1 true
    (by decide) (by decide) (by decide) (by decide)

theorem turn_current_turn (g : GameState) (die : Nat) (coin : Bool) :
    (turn g die coin).current_turn = g.current_turn + 1 := rfl

theorem play_eq (dice : Nat → Nat) (coins : Nat → Bool) (g : GameState) :
    play dice coins g = if stop_condtion g then g
      else play dice coins (turn g (dice g.current_turn) (coins g.current_turn)) := by
  rw [play]

theorem play_stop (dice : Nat → Nat) (coins : Nat → Bool) (g : GameState) :
    stop_condtion (play dice coins g) = true := by
  by_cases h : stop_condtion g = true
  · rw [play_eq, if_pos h]
    exact h
  · rw [play_eq, if_neg h]
    exact play_stop dice coins (turn g (dice g.current_turn) (coins g.current_turn))
termination_by 1000 - g.current_turn
decreasing_by
  rw [turn_current_turn]
  simp only [stop_condtion, Bool.or_eq_true, decide_eq_true_eq, not_or] at h
  omega

theorem getD_true_lt (active : List Bool) (i : Nat)
    (h : active.getD i false = true) : i < active.length := by
  by_contra hh
  rw [List.getD_eq_getElem?_getD, List.getElem?_eq_none (by omega)] at h
  simp at h

theorem next_search_hit (active : List Bool) :
    ∀ (fuel cur k : Nat), 1 ≤ k → k ≤ fuel →
      active.getD ((cur + k) % active.length) false = true →
      ∃ j, next_player_search active cur fuel = some j ∧
        j < active.length ∧ active.getD j false = true := by
  intro fuel
  induction fuel with
  | zero =>
    intro cur k h1 h2 _
    omega
  | succ fuel ih =>
    intro cur k h1 h2 hk
    by_cases hx : active.getD ((cur + 1) % active.length) false = true
    · refine ⟨(cur + 1) % active.length, ?_, getD_true_lt _ _ hx, hx⟩
      simp only [next_player_search]
      rw [if_pos hx]
    · rcases Nat.lt_or_ge k 2 with hk2 | hk2
      · have hk1' : k = 1 := by omega
        subst hk1'
        exact absurd hk hx
      · have hmod : ((cur + 1) % active.length + (k - 1)) % active.length
            = (cur + k) % active.length := by
          rw [Nat.mod_add_mod]
          congr 1
          omega
        obtain ⟨j, hj1, hj2, hj3⟩ := ih ((cur + 1) % active.length) (k - 1)
          (by omega) (by omega) (by rw [hmod]; exact hk)
        refine ⟨j, ?_, hj2, hj3⟩
        simp only [next_player_search]
        rw [if_neg hx]
        exact hj1

theorem exists_step (n i cur : Nat) (hn : 0 < n) (hi : i < n) :
    ∃ k, 1 ≤ k ∧ k ≤ n ∧ (cur + k) % n = i := by
  have hr : cur % n < n := Nat.mod_lt _ hn
  by_cases hir : cur % n < i
  · refine ⟨i - cur % n, by omega, by omega, ?_⟩
    rw [Nat.add_mod]
    rw [Nat.mod_eq_of_lt (show i - cur % n < n by omega)]
    rw [show cur % n + (i - cur % n) = i by omega]
    exact Nat.mod_eq_of_lt hi
  · by_cases hie : i = cur % n
    · refine ⟨n, by omega, le_refl n, ?_⟩
      rw [Nat.add_mod_right]
      omega
    · refine ⟨n - cur % n + i, by omega, by omega, ?_⟩
      rw [Nat.add_mod]
      rw [Nat.mod_eq_of_lt (show n - cur % n + i < n by omega)]
      rw [show cur % n + (n - cur % n + i) = n + i by omega]
      rw [Nat.add_mod_left]
      exact Nat.mod_eq_of_lt hi

theorem next_search_some (active : List Bool) (cur i : Nat)
    (hi : i < active.length) (ha : active.getD i false = true) :
    ∃ j, next_player_search active cur active.length = some j ∧
      j < active.length ∧ active.getD j false = true := by
  obtain ⟨k, hk1, hk2, hk3⟩ := exists_step active.length i cur (by omega) hi
  exact next_search_hit active active.length cur k hk1 hk2 (by rw [hk3]; exact ha)

/-- C4: every executed turn increments `current_turn` by exactly 1, `play`
returns immediately once the stop condition (winner found or turn counter
at 1000) holds, every `play` run ends in a state satisfying the stop
condition, and the next-active-player search over one full cycle of the
player list succeeds and lands on an active player whenever at least one
player is active — in particular, with exactly one active player it
resolves to that player's index. -/
theorem c4_termination :
    (∀ (g : GameState) (die : Nat) (coin : Bool),
      (turn g die coin).current_turn = g.current_turn + 1) ∧
    (∀ (dice : Nat → Nat) (coins : Nat → Bool) (g : GameState),
      stop_condtion g = true → play dice coins g = g) ∧
    (∀ (dice : Nat → Nat) (coins : Nat → Bool) (g : GameState),
      stop_condtion (play dice coins g) = true) ∧
    (∀ (active : List Bool) (cur i : Nat),
      i < active.length → active.getD i false = true →
      ∃ j, next_player_search active cur active.length = some j ∧
        j < active.length ∧ active.getD j false = true) ∧
    (∀ (active : List Bool) (cur i : Nat),
      i < active.length → active.getD i false = true →
      (∀ m, m < active.length → active.getD m false = true → m = i) →
      next_player_search active cur active.length = some i) := by
  refine ⟨fun g die coin => turn_current_turn g die coin,
          fun dice coins g h => by rw [play_eq, if_pos h],
          fun dice coins g => play_stop dice coins g,
          fun active cur i hi ha => next_search_some active cur i hi ha,
          fun active cur i hi ha huniq => ?_⟩
  obtain ⟨j, hj1, hj2, hj3⟩ := next_search_some active cur i hi ha
  rw [hj1, huniq j hj2 hj3]

/-- C4 witness: a concrete two-player game; the search over `[false, true]`
starting at 0 resolves to the unique active index 1. -/
theorem c4_termination_witness :
    (turn (Game.init ⟨[⟨60, 10, none⟩]⟩
        [⟨300, Behavior.impulsive⟩, ⟨300, Behavior.demanding⟩]) 3 true).current_turn
      = (Game.init ⟨[⟨60, 10, none⟩]⟩
          [⟨300, Behavior.impulsive⟩, ⟨300, Behavior.demanding⟩]).current_turn + 1 ∧
    stop_condtion (play (fun _ => 3) (fun _ => true)
        (Game.init ⟨[⟨60, 10, none⟩]⟩
          [⟨300, Behavior.impulsive⟩, ⟨300, Behavior.demanding⟩])) = true ∧
    next_player_search [false, true] 0 (List.length [false, true]) = some 1 :=
  ⟨c4_termination.1 (Game.init ⟨[⟨60, 10, none⟩]⟩
      [⟨300, Behavior.impulsive⟩, ⟨300, Behavior.demanding⟩]) 3 true,
   c4_termination.2.2.1 (fun _ => 3) (fun _ => true)
     (Game.init ⟨[⟨60, 10, none⟩]⟩
       [⟨300, Behavior.impulsive⟩, ⟨300, Behavior.demanding⟩]),
   c4_termination.2.2.2.2 [false, true] 0 1 (by decide) (by decide) (by decide)⟩

/-- C8: `play_game` initialises the game with exactly the runner's own
player list (no balance reset) over the board handed in, and afterwards the
runner's player list is the played game's final player list — so the player
balances at the start of a `play_game` call are exactly those at the end of
the previous call. -/
theorem c8_players_persist_across_games :
    (∀ (r : GameRunner) (board : Board),
      (Game.init board r.players).players = r.players ∧
      (Game.init board r.players).board = board) ∧
    (∀ (r : GameRunner) (board : Board) (dice : Nat → Nat) (coins : Nat → Bool),
      (play_game r board dice coins).players
        = (play dice coins (Game.init board r.players)).players) ∧
    (∀ (r : GameRunner) (b1 : Board) (d1 : Nat → Nat) (c1 : Nat → Bool) (b2 : Board),
      (Game.init b2 (play_game r b1 d1 c1).players).players
        = (play d1 c1 (Game.init b1 r.players)).players) := by
  have h2 : ∀ (r : GameRunner) (board : Board) (dice : Nat → Nat) (coins : Nat → Bool),
      (play_game r board dice coins).players
        = (play dice coins (Game.init board r.players)).players := by
    intro r board dice coins
    simp only [play_game]
    cases h : has_winner (play dice coins (Game.init board r.players)) <;> rfl
  exact ⟨fun r board => ⟨rfl, rfl⟩, h2, fun r b1 d1 c1 b2 => h2 r b1 d1 c1⟩

theorem foldl_max_le (l : List Int) : ∀ (a : Int), a ≤ l.foldl max a := by
  induction l with
  | nil => intro a; exact le_refl a
  | cons x xs ih => intro a; exact le_trans (le_max_left a x) (ih (max a x))

theorem foldl_max_mem_le (l : List Int) : ∀ (a x : Int), x ∈ l → x ≤ l.foldl max a := by
  induction l with
  | nil =>
    intro a x hx
    cases hx
  | cons y ys ih =>
    intro a x hx
    rcases List.mem_cons.mp hx with rfl | hx'
    · exact le_trans (le_max_right a x) (foldl_max_le ys (max a x))
    · exact ih (max a y) x hx'

theorem foldl_max_mem_or (l : List Int) :
    ∀ (a : Int), l.foldl max a = a ∨ l.foldl max a ∈ l := by
  induction l with
  | nil => intro a; exact Or.inl rfl
  | cons y ys ih =>
    intro a
    rcases ih (max a y) with h | h
    · rw [List.foldl_cons, h]
      rcases max_choice a y with h' | h'
      · exact Or.inl h'
      · refine Or.inr ?_
        rw [h']
        exact List.mem_cons_self y ys
    · refine Or.inr (List.mem_cons_of_mem y ?_)
      rw [List.foldl_cons]
      exact h

theorem list_max_le (l : List Int) (x : Int) (hx : x ∈ l) : x ≤ list_max l := by
  cases l with
  | nil => cases hx
  | cons y ys =>
    rcases List.mem_cons.mp hx with rfl | hx'
    · exact foldl_max_le ys x
    · exact foldl_max_mem_le ys y x hx'

theorem list_max_mem (l : List Int) (h : l ≠ []) : list_max l ∈ l := by
  cases l with
  | nil => exact absurd rfl h
  | cons y ys =>
    rcases foldl_max_mem_or ys y with h' | h'
    · have he : list_max (y :: ys) = y := h'
      rw [he]
      exact List.mem_cons_self y ys
    · exact List.mem_cons_of_mem y h'

theorem pwhb_def (g : GameState) :
    player_with_highest_balance g
      = g.players.findIdx
          fun q => decide (q.balance = list_max (g.players.map Player.balance)) := rfl

/-- C10: `player_with_highest_balance` maximises the balance over all of
the game's players, active or eliminated alike; there are game states with
no winner whose highest-balance player is inactive; and `play_game` records
exactly that player as the winner of a timed-out (winnerless) game — so the
recorded fallback winner can be a player already eliminated from the game. -/
theorem c10_highest_balance_over_all :
    (∀ g : GameState, 0 < g.players.length →
      player_with_highest_balance g < g.players.length ∧
      ∀ k, k < g.players.length →
        get_balance g.players k ≤ get_balance g.players (player_with_highest_balance g)) ∧
    (∃ g : GameState, has_winner g = none ∧
      g.active_player.getD (player_with_highest_balance g) false = false) ∧
    (∀ (r : GameRunner) (board : Board) (dice : Nat → Nat) (coins : Nat → Bool),
      has_winner (play dice coins (Game.init board r.players)) = none →
      (play_game r board dice coins).winner
        = r.winner ++ [player_with_highest_balance
            (play dice coins (Game.init board r.players))]) := by
  refine ⟨?_, ?_, ?_⟩
  · intro g hg
    have hmapne : g.players.map Player.balance ≠ [] := by
      apply List.ne_nil_of_length_pos
      rw [List.length_map]
      exact hg
    have hmem : list_max (g.players.map Player.balance) ∈ g.players.map Player.balance :=
      list_max_mem _ hmapne
    rw [List.mem_map] at hmem
    obtain ⟨p, hp, hpm⟩ := hmem
    have hex : ∃ q ∈ g.players,
        (fun q => decide (q.balance = list_max (g.players.map Player.balance))) q
          = true := ⟨p, hp, by simp [hpm]⟩
    have hlt : g.players.findIdx
        (fun q => decide (q.balance = list_max (g.players.map Player.balance)))
        < g.players.length :=
      List.findIdx_lt_length_of_exists hex
    rw [pwhb_def]
    refine ⟨hlt, ?_⟩
    intro k hk
    have hval := List.findIdx_getElem (w := hlt)
    simp only [decide_eq_true_eq] at hval
    simp only [get_balance]
    rw [getD_eq_get _ _ _ hlt, getD_eq_get _ _ _ hk, hval]
    apply list_max_le
    exact List.mem_map.mpr ⟨g.players[k], List.getElem_mem hk, rfl⟩
  · refine ⟨⟨⟨[⟨1, 1, none⟩]⟩,
      [⟨-10, Behavior.impulsive⟩, ⟨-50, Behavior.demanding⟩, ⟨-60, Behavior.cautious⟩],
      0, 1, [0, 0, 0], [false, true, true]⟩, by decide, by decide⟩
  · intro r board dice coins hw
    simp only [play_game]
    rw [hw]

/-- C10 witness: in a two-player game the returned index is in range and
its balance dominates both players' balances. -/
theorem c10_highest_balance_over_all_witness :
    player_with_highest_balance (Game.init ⟨[⟨60, 10, none⟩]⟩
        [⟨300, Behavior.impulsive⟩, ⟨200, Behavior.demanding⟩])
      < (Game.init ⟨[⟨60, 10, none⟩]⟩
          [⟨300, Behavior.impulsive⟩, ⟨200, Behavior.demanding⟩]).players.length ∧
    (∀ k, k < (Game.init ⟨[⟨60, 10, none⟩]⟩
        [⟨300, Behavior.impulsive⟩, ⟨200, Behavior.demanding⟩]).players.length →
      get_balance (Game.init ⟨[⟨60, 10, none⟩]⟩
          [⟨300, Behavior.impulsive⟩, ⟨200, Behavior.demanding⟩]).players k
        ≤ get_balance (Game.init ⟨[⟨60, 10, none⟩]⟩
            [⟨300, Behavior.impulsive⟩, ⟨200, Behavior.demanding⟩]).players
          (player_with_highest_balance (Game.init ⟨[⟨60, 10, none⟩]⟩
            [⟨300, Behavior.impulsive⟩, ⟨200, Behavior.demanding⟩]))) :=
  c10_highest_balance_over_all.1 (Game.init ⟨[⟨60, 10, none⟩]⟩
    [⟨300, Behavior.impulsive⟩, ⟨200, Behavior.demanding⟩]) (by decide)
